import Mathlib

/-!
Verification of the VGA text-buffer writer (`src/vga_buffer.rs`).

The module renders ASCII bytes into a fixed 25×80 grid of 2-byte cells.
We embed the data model and operations shallowly:

* machine bytes (`u8`) and `usize` become `Nat`;
* the memory-mapped grid becomes a total function `Nat → Nat → ScreenChar`,
  accessed only through bounds-checked `Buffer.read` / `Buffer.write`
  (an out-of-bounds index, which panics in Rust, yields `none`);
* the Rust `for` loops become `List.foldlM` over the same index ranges,
  in the same order, inside the `Option` monad;
* `write_byte`, `write_string`, `new_line`, `clear_row` and the
  `fmt::Write::write_str` adapter are translated statement by statement.
-/

namespace VgaBuffer

/-- The 16 hardware colors, `enum Color` with `repr(u8)` discriminants 0–15. -/
inductive Color where
  | Black
  | Blue
  | Green
  | Cyan
  | Red
  | Magenta
  | Brown
  | LightGray
  | DarkGray
  | LightBlue
  | LightGreen
  | LightCyan
  | LightRed
  | Pink
  | Yellow
  | White
deriving DecidableEq, Repr

/-- The numeric discriminant of a `Color` (the effect of `as u8` in Rust). -/
def Color.toNat : Color → Nat
  | .Black => 0
  | .Blue => 1
  | .Green => 2
  | .Cyan => 3
  | .Red => 4
  | .Magenta => 5
  | .Brown => 6
  | .LightGray => 7
  | .DarkGray => 8
  | .LightBlue => 9
  | .LightGreen => 10
  | .LightCyan => 11
  | .LightRed => 12
  | .Pink => 13
  | .Yellow => 14
  | .White => 15

/-- `ColorCode` is `repr(transparent)` over `u8`; we model it as the byte value. -/
abbrev ColorCode := Nat

/-- `ColorCode::new`: `ColorCode((background as u8) << 4 | (foreground as u8))`. -/
def ColorCode.new (foreground background : Color) : ColorCode :=
  (background.toNat <<< 4) ||| foreground.toNat

/-- `struct ScreenChar { ascii_character: u8, color_code: ColorCode }`. -/
structure ScreenChar where
  ascii_character : Nat
  color_code : ColorCode
deriving DecidableEq, Repr

def BUFFER_HEIGHT : Nat := 25
def BUFFER_WIDTH : Nat := 80

/-- The 25×80 grid of cells (`struct Buffer`), as a total function; only indices
with row < 25 and col < 80 are ever accessed by the checked operations. -/
abbrev Buffer := Nat → Nat → ScreenChar

/-- A volatile read `self.buffer.chars[row][col].read()`: Rust array indexing
panics outside the fixed bounds, which we model as `none`. -/
def Buffer.read (buf : Buffer) (row col : Nat) : Option ScreenChar :=
  if row < BUFFER_HEIGHT ∧ col < BUFFER_WIDTH then some (buf row col) else none

/-- A volatile write `self.buffer.chars[row][col].write v`: in bounds it updates
the one cell, out of bounds it panics (`none`). -/
def Buffer.write (buf : Buffer) (row col : Nat) (v : ScreenChar) : Option Buffer :=
  if row < BUFFER_HEIGHT ∧ col < BUFFER_WIDTH then
    some (fun r c => if r = row ∧ c = col then v else buf r c)
  else none

/-- `struct Writer { column_position: usize, color_code: ColorCode, buffer: &'static mut Buffer }`. -/
structure Writer where
  column_position : Nat
  color_code : ColorCode
  buffer : Buffer

/-- `Writer::clear_row`: write the blank cell (space, current color) into every
column of `row`, columns ascending. -/
def Writer.clear_row (w : Writer) (row : Nat) : Option Writer :=
  Option.bind
    ((List.range BUFFER_WIDTH).foldlM
      (fun b col =>
        Buffer.write b row col
          { ascii_character := 32, color_code := w.color_code })
      w.buffer)
    (fun buf => some { w with buffer := buf })

/-- `Writer::new_line`: for each row 1..BUFFER_HEIGHT (ascending) copy every
column of that row into the row above, then clear the last row and reset the
column to 0. -/
def Writer.new_line (w : Writer) : Option Writer :=
  Option.bind
    ((List.range' 1 (BUFFER_HEIGHT - 1)).foldlM
      (fun b row =>
        (List.range BUFFER_WIDTH).foldlM
          (fun b2 col =>
            Option.bind (Buffer.read b2 row col)
              (fun character => Buffer.write b2 (row - 1) col character))
          b)
      w.buffer)
    (fun buf =>
      Option.bind (Writer.clear_row { w with buffer := buf } (BUFFER_HEIGHT - 1))
        (fun w2 => some { w2 with column_position := 0 }))

/-- `Writer::write_byte`: a newline byte triggers `new_line`; any other byte is
placed (after a wrap-check) at the last row, current column, and the column
advances by one. -/
def Writer.write_byte (w : Writer) (byte : Nat) : Option Writer :=
  if byte = 10 then w.new_line
  else
    Option.bind
      (if w.column_position ≥ BUFFER_WIDTH then w.new_line else some w)
      (fun w1 =>
        Option.bind
          (Buffer.write w1.buffer (BUFFER_HEIGHT - 1) w1.column_position
            { ascii_character := byte, color_code := w1.color_code })
          (fun buf =>
            some { w1 with buffer := buf, column_position := w1.column_position + 1 }))

/-- `Writer::write_string`: iterate the bytes in order; printable ASCII
(0x20–0x7E) and newline are forwarded unchanged, everything else becomes 0xFE. -/
def Writer.write_string (w : Writer) (s : List Nat) : Option Writer :=
  s.foldlM
    (fun w1 byte =>
      if (0x20 ≤ byte ∧ byte ≤ 0x7e) ∨ byte = 10 then w1.write_byte byte
      else w1.write_byte 0xfe)
    w

/-- `core::fmt::Error`, a unit struct. -/
inductive FmtError where
  | mk
deriving DecidableEq, Repr

/-- `fmt::Result = Result<(), fmt::Error>`. -/
abbrev FmtResult := Except FmtError Unit

/-- The `fmt::Write` impl: `write_str` forwards to `write_string` and returns `Ok(())`. -/
def Writer.write_str (w : Writer) (s : List Nat) : Option (Writer × FmtResult) :=
  Option.bind (w.write_string s) (fun w1 => some (w1, Except.ok ()))

/-- The fixed memory-mapped address of the text buffer (`0xb8000`). -/
def VGA_BUFFER_ADDRESS : Nat := 0xb8000

/-- The state the `lazy_static!` singleton `WRITER` is constructed with, as a
function of the (unknown) initial contents of the hardware buffer at
`VGA_BUFFER_ADDRESS`. -/
def WRITER (hardwareBuffer : Buffer) : Writer :=
  { column_position := 0
    color_code := ColorCode.new Color.Yellow Color.Black
    buffer := hardwareBuffer }

/-- One call through the public write path, for stating reachability/safety. -/
inductive WriteOp where
  | byteOp (b : Nat)
  | stringOp (s : List Nat)
  | newlineOp
deriving Repr

/-- Perform one public write-path call. -/
def runOp (w : Writer) (op : WriteOp) : Option Writer :=
  match op with
  | .byteOp b => w.write_byte b
  | .stringOp s => w.write_string s
  | .newlineOp => w.new_line

/-- Run a sequence of public write-path calls on a writer. -/
def runOps (w : Writer) (ops : List WriteOp) : Option Writer :=
  ops.foldlM runOp w

/-- The buffer contents after a scroll: rows shifted up by one, last row blank. -/
def scrolledBuffer (buf : Buffer) (color : ColorCode) : Buffer :=
  fun r c =>
    if r < BUFFER_HEIGHT - 1 ∧ c < BUFFER_WIDTH then buf (r + 1) c
    else if r = BUFFER_HEIGHT - 1 ∧ c < BUFFER_WIDTH then
      { ascii_character := 32, color_code := color }
    else buf r c

/-- A concrete all-zero buffer, used to instantiate theorems. -/
def zeroBuf : Buffer := fun _ _ => { ascii_character := 0, color_code := 0 }

/-- A concrete writer at column 0 with color byte 7, used to instantiate theorems. -/
def testWriter : Writer :=
  { column_position := 0, color_code := 7, buffer := zeroBuf }

lemma read_eq (buf : Buffer) (row col : Nat) (hr : row < BUFFER_HEIGHT)
    (hc : col < BUFFER_WIDTH) : Buffer.read buf row col = some (buf row col) := by
  simp [Buffer.read, hr, hc]

lemma write_eq (buf : Buffer) (row col : Nat) (v : ScreenChar) (hr : row < BUFFER_HEIGHT)
    (hc : col < BUFFER_WIDTH) :
    Buffer.write buf row col v
      = some (fun r c => if r = row ∧ c = col then v else buf r c) := by
  simp [Buffer.write, hr, hc]

lemma copyRow_aux (row : Nat) (h1 : 1 ≤ row) (h2 : row < BUFFER_HEIGHT) :
    ∀ (k c : Nat) (buf : Buffer), c + k ≤ BUFFER_WIDTH →
      (List.range' c k).foldlM
          (fun b2 col =>
            Option.bind (Buffer.read b2 row col)
              (fun character => Buffer.write b2 (row - 1) col character))
          buf
        = some (fun r c' =>
            if r = row - 1 ∧ c ≤ c' ∧ c' < c + k then buf row c' else buf r c') := by
  intro k
  induction k with
  | zero =>
      intro c buf h
      simp only [List.range']
      rw [List.foldlM_nil]
      congr 1
      funext r c'
      rw [if_neg (by omega)]
  | succ k ih =>
      intro c buf h
      rw [List.range'_succ, List.foldlM_cons]
      rw [read_eq buf row c h2 (by omega)]
      simp only [Option.bind_eq_bind, Option.some_bind]
      rw [write_eq buf (row - 1) c (buf row c) (by omega) (by omega)]
      simp only [Option.some_bind]
      rw [ih (c + 1) _ (by omega)]
      congr 1
      funext r c'
      split_ifs <;> first | rfl | omega | (congr 1; omega)

lemma clearRow_aux (row : Nat) (h2 : row < BUFFER_HEIGHT) (blank : ScreenChar) :
    ∀ (k c : Nat) (buf : Buffer), c + k ≤ BUFFER_WIDTH →
      (List.range' c k).foldlM (fun b col => Buffer.write b row col blank) buf
        = some (fun r c' =>
            if r = row ∧ c ≤ c' ∧ c' < c + k then blank else buf r c') := by
  intro k
  induction k with
  | zero =>
      intro c buf h
      simp only [List.range']
      rw [List.foldlM_nil]
      congr 1
      funext r c'
      rw [if_neg (by omega)]
  | succ k ih =>
      intro c buf h
      rw [List.range'_succ, List.foldlM_cons]
      rw [write_eq buf row c blank h2 (by omega)]
      simp only [Option.bind_eq_bind, Option.some_bind]
      rw [ih (c + 1) _ (by omega)]
      congr 1
      funext r c'
      split_ifs <;> first | rfl | omega

lemma scrollRows_aux :
    ∀ (k s : Nat) (buf : Buffer), 1 ≤ s → s + k ≤ BUFFER_HEIGHT →
      (List.range' s k).foldlM
          (fun b row =>
            (List.range BUFFER_WIDTH).foldlM
              (fun b2 col =>
                Option.bind (Buffer.read b2 row col)
                  (fun character => Buffer.write b2 (row - 1) col character))
              b)
          buf
        = some (fun r c =>
            if s - 1 ≤ r ∧ r < s + k - 1 ∧ c < BUFFER_WIDTH then buf (r + 1) c
            else buf r c) := by
  intro k
  induction k with
  | zero =>
      intro s buf hs h
      simp only [List.range']
      rw [List.foldlM_nil]
      congr 1
      funext r c
      rw [if_neg (by omega)]
  | succ k ih =>
      intro s buf hs h
      rw [List.range'_succ, List.foldlM_cons]
      have hinner :
          (List.range BUFFER_WIDTH).foldlM
              (fun b2 col =>
                Option.bind (Buffer.read b2 s col)
                  (fun character => Buffer.write b2 (s - 1) col character))
              buf
            = some (fun r c' =>
                if r = s - 1 ∧ 0 ≤ c' ∧ c' < 0 + BUFFER_WIDTH then buf s c'
                else buf r c') := by
        rw [List.range_eq_range']
        exact copyRow_aux s hs (by omega) BUFFER_WIDTH 0 buf (by omega)
      rw [hinner]
      simp only [Option.bind_eq_bind, Option.some_bind]
      rw [ih (s + 1) _ (by omega) (by omega)]
      congr 1
      funext r c
      split_ifs <;> first | rfl | omega | (congr 1; omega)

lemma new_line_eq (w : Writer) :
    w.new_line
      = some { column_position := 0, color_code := w.color_code
               buffer := scrolledBuffer w.buffer w.color_code } := by
  unfold Writer.new_line
  rw [scrollRows_aux (BUFFER_HEIGHT - 1) 1 w.buffer (by decide) (by decide)]
  simp only [Option.some_bind]
  unfold Writer.clear_row
  rw [List.range_eq_range']
  rw [clearRow_aux (BUFFER_HEIGHT - 1) (by decide) _ BUFFER_WIDTH 0 _ (by decide)]
  simp only [Option.some_bind]
  congr 1
  congr 1
  funext r c
  unfold scrolledBuffer
  split_ifs <;> first | rfl | omega

lemma write_byte_newline (w : Writer) : w.write_byte 10 = w.new_line := by
  simp [Writer.write_byte]

lemma write_byte_noWrap (w : Writer) (b : Nat) (hb : b ≠ 10)
    (hc : w.column_position < BUFFER_WIDTH) :
    w.write_byte b
      = some { column_position := w.column_position + 1, color_code := w.color_code
               buffer := fun r c =>
                 if r = BUFFER_HEIGHT - 1 ∧ c = w.column_position then
                   { ascii_character := b, color_code := w.color_code }
                 else w.buffer r c } := by
  unfold Writer.write_byte
  rw [if_neg hb, if_neg (by omega)]
  simp only [Option.some_bind]
  rw [write_eq _ _ _ _ (by decide) hc]
  simp only [Option.some_bind]

lemma write_byte_wrap (w : Writer) (b : Nat) (hb : b ≠ 10)
    (hc : w.column_position ≥ BUFFER_WIDTH) :
    w.write_byte b
      = some { column_position := 1, color_code := w.color_code
               buffer := fun r c =>
                 if r = BUFFER_HEIGHT - 1 ∧ c = 0 then
                   { ascii_character := b, color_code := w.color_code }
                 else scrolledBuffer w.buffer w.color_code r c } := by
  unfold Writer.write_byte
  rw [if_neg hb, if_pos hc, new_line_eq]
  simp only [Option.some_bind]
  rw [write_eq _ _ _ _ (by decide) (by decide)]
  simp only [Option.some_bind]

lemma write_string_nil (w : Writer) : w.write_string [] = some w := rfl

lemma write_string_cons (w : Writer) (b : Nat) (s : List Nat) :
    w.write_string (b :: s)
      = Option.bind
          (if (0x20 ≤ b ∧ b ≤ 0x7e) ∨ b = 10 then w.write_byte b else w.write_byte 0xfe)
          (fun w1 => w1.write_string s) := by
  unfold Writer.write_string
  rw [List.foldlM_cons]
  simp only [Option.bind_eq_bind]

lemma write_string_append_eq (w : Writer) (s1 s2 : List Nat) :
    w.write_string (s1 ++ s2)
      = Option.bind (w.write_string s1) (fun w1 => w1.write_string s2) := by
  unfold Writer.write_string
  rw [List.foldlM_append]
  simp only [Option.bind_eq_bind]

lemma write_byte_safe (w : Writer) (b : Nat) (h : w.column_position ≤ BUFFER_WIDTH) :
    ∃ w', w.write_byte b = some w' ∧ w'.column_position ≤ BUFFER_WIDTH := by
  by_cases hb : b = 10
  · subst hb
    rw [write_byte_newline, new_line_eq]
    refine ⟨_, rfl, ?_⟩
    show 0 ≤ BUFFER_WIDTH
    decide
  · by_cases hc : w.column_position < BUFFER_WIDTH
    · rw [write_byte_noWrap w b hb hc]
      refine ⟨_, rfl, ?_⟩
      show w.column_position + 1 ≤ BUFFER_WIDTH
      omega
    · rw [write_byte_wrap w b hb (by omega)]
      refine ⟨_, rfl, ?_⟩
      show 1 ≤ BUFFER_WIDTH
      decide

lemma write_string_safe (s : List Nat) :
    ∀ (w : Writer), w.column_position ≤ BUFFER_WIDTH →
      ∃ w', w.write_string s = some w' ∧ w'.column_position ≤ BUFFER_WIDTH := by
  induction s with
  | nil => intro w h; exact ⟨w, write_string_nil w, h⟩
  | cons b s ih =>
      intro w h
      rw [write_string_cons]
      by_cases hcl : (0x20 ≤ b ∧ b ≤ 0x7e) ∨ b = 10
      · rw [if_pos hcl]
        obtain ⟨w1, hw1, hcol1⟩ := write_byte_safe w b h
        rw [hw1]
        simp only [Option.some_bind]
        exact ih w1 hcol1
      · rw [if_neg hcl]
        obtain ⟨w1, hw1, hcol1⟩ := write_byte_safe w 0xfe h
        rw [hw1]
        simp only [Option.some_bind]
        exact ih w1 hcol1

lemma runOps_safe (ops : List WriteOp) :
    ∀ (w : Writer), w.column_position ≤ BUFFER_WIDTH →
      ∃ w', runOps w ops = some w' ∧ w'.column_position ≤ BUFFER_WIDTH := by
  induction ops with
  | nil => intro w h; exact ⟨w, rfl, h⟩
  | cons op ops ih =>
      intro w h
      unfold runOps
      rw [List.foldlM_cons]
      simp only [Option.bind_eq_bind]
      cases op with
      | byteOp b =>
          obtain ⟨w1, hw1, hcol1⟩ := write_byte_safe w b h
          rw [show runOp w (WriteOp.byteOp b) = w.write_byte b from rfl, hw1]
          simp only [Option.some_bind]
          exact ih w1 hcol1
      | stringOp s =>
          obtain ⟨w1, hw1, hcol1⟩ := write_string_safe s w h
          rw [show runOp w (WriteOp.stringOp s) = w.write_string s from rfl, hw1]
          simp only [Option.some_bind]
          exact ih w1 hcol1
      | newlineOp =>
          rw [show runOp w WriteOp.newlineOp = w.new_line from rfl, new_line_eq]
          simp only [Option.some_bind]
          exact ih _ (by show 0 ≤ BUFFER_WIDTH; decide)

lemma write_string_printable (s : List Nat) :
    ∀ (w : Writer), (∀ b ∈ s, 0x20 ≤ b ∧ b ≤ 0x7e) →
      w.column_position + s.length ≤ BUFFER_WIDTH →
      ∃ w', w.write_string s = some w' ∧
        w'.column_position = w.column_position + s.length ∧
        w'.color_code = w.color_code ∧
        ∀ r c, w'.buffer r c
          = if r = BUFFER_HEIGHT - 1 ∧ w.column_position ≤ c ∧
               c < w.column_position + s.length then
              { ascii_character := s[c - w.column_position]!
                color_code := w.color_code }
            else w.buffer r c := by
  induction s with
  | nil =>
      intro w hp hlen
      refine ⟨w, write_string_nil w, by simp, rfl, ?_⟩
      intro r c
      rw [if_neg (by simp only [List.length_nil]; omega)]
  | cons b s ih =>
      intro w hp hlen
      have hb := hp b (List.mem_cons_self ..)
      have hlen' : w.column_position + (s.length + 1) ≤ BUFFER_WIDTH := by
        simpa [List.length_cons] using hlen
      rw [write_string_cons, if_pos (Or.inl hb)]
      rw [write_byte_noWrap w b (by omega) (by omega)]
      simp only [Option.some_bind]
      obtain ⟨w', hw', hcol, hcolor, hbuf⟩ :=
        ih { column_position := w.column_position + 1, color_code := w.color_code
             buffer := fun r c =>
               if r = BUFFER_HEIGHT - 1 ∧ c = w.column_position then
                 { ascii_character := b, color_code := w.color_code }
               else w.buffer r c }
          (fun x hx => hp x (List.mem_cons_of_mem b hx))
          (by show w.column_position + 1 + s.length ≤ BUFFER_WIDTH; omega)
      refine ⟨w', hw', ?_, ?_, ?_⟩
      · rw [hcol]
        show w.column_position + 1 + s.length = w.column_position + (b :: s).length
        simp only [List.length_cons]
        omega
      · rw [hcolor]
      · intro r c
        rw [hbuf r c]
        show (if r = BUFFER_HEIGHT - 1 ∧ w.column_position + 1 ≤ c ∧
                 c < w.column_position + 1 + s.length then
                { ascii_character := s[c - (w.column_position + 1)]!
                  color_code := w.color_code }
              else if r = BUFFER_HEIGHT - 1 ∧ c = w.column_position then
                { ascii_character := b, color_code := w.color_code }
              else w.buffer r c)
          = _
        by_cases h1 : r = BUFFER_HEIGHT - 1 ∧ w.column_position + 1 ≤ c ∧
            c < w.column_position + 1 + s.length
        · rw [if_pos h1, if_pos (by
            refine ⟨h1.1, by omega, ?_⟩
            show c < w.column_position + (b :: s).length
            simp only [List.length_cons]
            omega)]
          have hsub : c - w.column_position = (c - (w.column_position + 1)) + 1 := by omega
          congr 1
          rw [hsub]
          rw [List.getElem!_cons_succ]
        · rw [if_neg h1]
          by_cases h2 : r = BUFFER_HEIGHT - 1 ∧ c = w.column_position
          · rw [if_pos h2, if_pos (by
              refine ⟨h2.1, by omega, ?_⟩
              show c < w.column_position + (b :: s).length
              simp only [List.length_cons]
              omega)]
            have hsub : c - w.column_position = 0 := by omega
            congr 1
            rw [hsub]
            rw [List.getElem!_cons_zero]
          · rw [if_neg h2, if_neg (by
              intro hcon
              obtain ⟨hr, hge, hlt⟩ := hcon
              have hlt' : c < w.column_position + (s.length + 1) := by
                simpa [List.length_cons] using hlt
              exact (if hceq : c = w.column_position then h2 ⟨hr, hceq⟩
                     else h1 ⟨hr, by omega, by omega⟩))]

lemma BUFFER_HEIGHT_eq : BUFFER_HEIGHT = 25 := rfl

lemma BUFFER_WIDTH_eq : BUFFER_WIDTH = 80 := rfl

lemma option_bind_some_eta {α : Type} (x : Option α) :
    Option.bind x (fun a => some a) = x := by
  cases x <;> rfl

/-- Claim C1: for every printable ASCII byte b (0x20..0x7E) and every Writer
state with column_position c < 80, `write_byte b` writes the cell
(b, color_code) at row 24 (the last row), column c, and sets column_position
to c+1; no scroll occurs (every other cell keeps its contents). -/
theorem claim_C1_write_byte_printable (w : Writer) (b : Nat)
    (hb1 : 0x20 ≤ b) (hb2 : b ≤ 0x7e) (hc : w.column_position < 80) :
    ∃ w', w.write_byte b = some w' ∧
      w'.column_position = w.column_position + 1 ∧
      w'.buffer 24 w.column_position
        = { ascii_character := b, color_code := w.color_code } ∧
      (∀ r c, ¬(r = 24 ∧ c = w.column_position) → w'.buffer r c = w.buffer r c) := by
  rw [write_byte_noWrap w b (by omega) hc]
  refine ⟨_, rfl, rfl, ?_, ?_⟩
  · show (if 24 = BUFFER_HEIGHT - 1 ∧ w.column_position = w.column_position then
        ({ ascii_character := b, color_code := w.color_code } : ScreenChar)
      else w.buffer 24 w.column_position) = _
    rw [if_pos ⟨by decide, rfl⟩]
  · intro r c hne
    show (if r = BUFFER_HEIGHT - 1 ∧ c = w.column_position then
        ({ ascii_character := b, color_code := w.color_code } : ScreenChar)
      else w.buffer r c) = _
    rw [if_neg (by
      intro hcon
      exact hne ⟨by have h25 := BUFFER_HEIGHT_eq; omega, hcon.2⟩)]

/-- Witness for C1: concrete writer at column 0, byte 65. -/
theorem claim_C1_witness :
    (0x20 ≤ 65 ∧ 65 ≤ 0x7e ∧ testWriter.column_position < 80) ∧
    (∃ w', testWriter.write_byte 65 = some w' ∧
      w'.column_position = testWriter.column_position + 1 ∧
      w'.buffer 24 testWriter.column_position
        = { ascii_character := 65, color_code := testWriter.color_code } ∧
      (∀ r c, ¬(r = 24 ∧ c = testWriter.column_position) →
        w'.buffer r c = testWriter.buffer r c)) :=
  ⟨⟨by decide, by decide, by decide⟩,
   claim_C1_write_byte_printable testWriter 65 (by decide) (by decide) (by decide)⟩

/-- Claim C2: `write_byte 10` invokes `new_line` and places no glyph; `new_line`
shifts every row r (1..24) into row r-1, discards row 0's prior content,
blanks every column of the last row with (space, current color), and resets
the column to 0, regardless of the prior column position. -/
theorem claim_C2_newline (w : Writer) :
    w.write_byte 10 = w.new_line ∧
    ∃ w', w.new_line = some w' ∧
      w'.column_position = 0 ∧
      w'.color_code = w.color_code ∧
      (∀ r c, 1 ≤ r → r ≤ 24 → c < 80 → w'.buffer (r - 1) c = w.buffer r c) ∧
      (∀ c, c < 80 →
        w'.buffer 24 c = { ascii_character := 32, color_code := w.color_code }) := by
  refine ⟨write_byte_newline w, ?_⟩
  rw [new_line_eq]
  refine ⟨_, rfl, rfl, rfl, ?_, ?_⟩
  · intro r c h1 h2 h3
    show scrolledBuffer w.buffer w.color_code (r - 1) c = _
    unfold scrolledBuffer
    rw [if_pos ⟨by have h25 := BUFFER_HEIGHT_eq; omega,
                by have h80 := BUFFER_WIDTH_eq; omega⟩]
    congr 1
    omega
  · intro c hc
    show scrolledBuffer w.buffer w.color_code 24 c = _
    unfold scrolledBuffer
    rw [if_neg (by have h25 := BUFFER_HEIGHT_eq; omega),
        if_pos ⟨by decide, by have h80 := BUFFER_WIDTH_eq; omega⟩]

/-- Witness for C2 (evaluating the nested implications at a concrete writer,
row 1, column 0). -/
theorem claim_C2_witness :
    testWriter.write_byte 10 = testWriter.new_line ∧
    ∃ w', testWriter.new_line = some w' ∧
      w'.buffer 0 0 = testWriter.buffer 1 0 ∧
      w'.buffer 24 0 = { ascii_character := 32, color_code := testWriter.color_code } := by
  obtain ⟨h1, w', hw', _, _, hshift, hblank⟩ := claim_C2_newline testWriter
  exact ⟨h1, w', hw', hshift 1 0 (by decide) (by decide) (by decide),
    hblank 0 (by decide)⟩

/-- Claim C7: for every (foreground, background) pair of the 16 colors,
`ColorCode::new` deterministically produces the byte (bg << 4) | fg, which
equals 16*bg + fg and fits in one byte, over all 256 combinations. -/
theorem claim_C7_color_code (fg bg : Color) :
    ColorCode.new fg bg = 16 * bg.toNat + fg.toNat ∧ ColorCode.new fg bg < 256 := by
  cases fg <;> cases bg <;> exact ⟨by decide, by decide⟩

/-- Claim C8: the singleton Writer starts at column 0 with color
`ColorCode::new(Yellow, Black)` (byte 14), bound to the hardware buffer. -/
theorem claim_C8_writer_init (hw : Buffer) :
    (WRITER hw).column_position = 0 ∧
    (WRITER hw).color_code = ColorCode.new Color.Yellow Color.Black ∧
    (WRITER hw).color_code = 14 ∧
    (WRITER hw).buffer = hw :=
  ⟨rfl, rfl, rfl, rfl⟩

/-- Claim C9: the text-stream adapter `write_str` forwards the string to
`write_string` and always pairs the resulting state with `Ok(())`; no input
produces an error result. -/
theorem claim_C9_write_str (w : Writer) (s : List Nat) :
    w.write_str s = Option.map (fun w1 => (w1, Except.ok ())) (w.write_string s) := by
  unfold Writer.write_str
  rcases h : w.write_string s with _ | w1 <;> simp [h]

/-- Claim C10: for every non-newline byte and every state with column < 80,
`write_byte` modifies only the cell (24, column) and the column position;
every other cell and the color_code are unchanged. -/
theorem claim_C10_frame (w : Writer) (b : Nat) (hb : b ≠ 10)
    (hc : w.column_position < 80) :
    ∃ w', w.write_byte b = some w' ∧
      w'.color_code = w.color_code ∧
      w'.column_position = w.column_position + 1 ∧
      (∀ r c, ¬(r = 24 ∧ c = w.column_position) → w'.buffer r c = w.buffer r c) := by
  rw [write_byte_noWrap w b hb hc]
  refine ⟨_, rfl, rfl, rfl, ?_⟩
  intro r c hne
  show (if r = BUFFER_HEIGHT - 1 ∧ c = w.column_position then
      ({ ascii_character := b, color_code := w.color_code } : ScreenChar)
    else w.buffer r c) = _
  rw [if_neg (by
    intro hcon
    exact hne ⟨by have h25 := BUFFER_HEIGHT_eq; omega, hcon.2⟩)]

/-- Witness for C10: concrete writer at column 0, non-printable byte 7. -/
theorem claim_C10_witness :
    ((7 : Nat) ≠ 10 ∧ testWriter.column_position < 80) ∧
    (∃ w', testWriter.write_byte 7 = some w' ∧
      w'.color_code = testWriter.color_code ∧
      w'.column_position = testWriter.column_position + 1 ∧
      (∀ r c, ¬(r = 24 ∧ c = testWriter.column_position) →
        w'.buffer r c = testWriter.buffer r c)) :=
  ⟨⟨by decide, by decide⟩, claim_C10_frame testWriter 7 (by decide) (by decide)⟩

/-- Claim C4: `write_string` processes its bytes one at a time in order with no
buffering or drops (it distributes over append), forwards printable/newline
bytes to `write_byte` unchanged, replaces every other byte with 0xFE, and each
non-newline byte yields exactly one cell placement with one column
advancement, while a newline yields the scroll/reset instead. -/
theorem claim_C4_write_string_classification (w : Writer) :
    (∀ s1 s2, w.write_string (s1 ++ s2)
        = Option.bind (w.write_string s1) (fun w1 => w1.write_string s2)) ∧
    (∀ b, ((0x20 ≤ b ∧ b ≤ 0x7e) ∨ b = 10) → w.write_string [b] = w.write_byte b) ∧
    (∀ b, ¬(0x20 ≤ b ∧ b ≤ 0x7e) → b ≠ 10 → w.write_string [b] = w.write_byte 0xfe) ∧
    (∀ b, b ≠ 10 → w.column_position ≤ 80 →
      ∃ w', w.write_byte b = some w' ∧
        w'.column_position
          = (if w.column_position < 80 then w.column_position else 0) + 1) ∧
    w.write_byte 10 = w.new_line := by
  refine ⟨?_, ?_, ?_, ?_, write_byte_newline w⟩
  · intro s1 s2
    exact write_string_append_eq w s1 s2
  · intro b hb
    rw [write_string_cons, if_pos hb]
    exact option_bind_some_eta _
  · intro b hb1 hb2
    rw [write_string_cons, if_neg (by tauto)]
    exact option_bind_some_eta _
  · intro b hb hcol
    by_cases hlt : w.column_position < 80
    · rw [write_byte_noWrap w b hb hlt]
      exact ⟨_, rfl, by rw [if_pos hlt]⟩
    · rw [write_byte_wrap w b hb (by have h80 := BUFFER_WIDTH_eq; omega)]
      exact ⟨_, rfl, by rw [if_neg hlt]⟩

/-- Witness for C4 at concrete strings and bytes. -/
theorem claim_C4_witness :
    testWriter.write_string ([72] ++ [10])
      = Option.bind (testWriter.write_string [72]) (fun w1 => w1.write_string [10]) ∧
    testWriter.write_string [72] = testWriter.write_byte 72 ∧
    testWriter.write_string [200] = testWriter.write_byte 0xfe ∧
    (∃ w', testWriter.write_byte 72 = some w' ∧
      w'.column_position
        = (if testWriter.column_position < 80 then testWriter.column_position else 0) + 1) := by
  obtain ⟨happ, hfwd, hsub, hadv, _⟩ := claim_C4_write_string_classification testWriter
  exact ⟨happ [72] [10], hfwd 72 (Or.inl (by decide)), hsub 200 (by decide) (by decide),
    hadv 72 (by decide) (by decide)⟩

/-- Counterexample to C5 as stated: at a concrete writer, `write_byte 0` and
`write_byte 0xfe` are different state transformations (the placed cell holds
ascii 0 in one case and 0xFE in the other) — `write_byte` renders the raw
byte; the 0xFE substitution happens in `write_string`. -/
theorem claim_C5_counterexample :
    ¬ (testWriter.write_byte 0 = testWriter.write_byte 0xfe) := by
  intro h
  have h3 : Option.map (fun w => (w.buffer 24 0).ascii_character)
        (testWriter.write_byte 0)
      ≠ Option.map (fun w => (w.buffer 24 0).ascii_character)
        (testWriter.write_byte 0xfe) := by
    decide
  exact h3 (by rw [h])

/-- Claim C5 (amended): for every non-printable, non-newline byte b and every
Writer state, writing b through the `write_string` path performs the identical
state transformation as `write_byte 0xfe`. -/
theorem claim_C5_amended_subst (w : Writer) (b : Nat)
    (h1 : ¬(0x20 ≤ b ∧ b ≤ 0x7e)) (h2 : b ≠ 10) :
    w.write_string [b] = w.write_byte 0xfe := by
  rw [write_string_cons, if_neg (by tauto)]
  exact option_bind_some_eta _

/-- Witness for the amended C5 at byte 200. -/
theorem claim_C5_witness :
    (¬(0x20 ≤ 200 ∧ (200 : Nat) ≤ 0x7e) ∧ (200 : Nat) ≠ 10) ∧
    testWriter.write_string [200] = testWriter.write_byte 0xfe :=
  ⟨⟨by decide, by decide⟩, claim_C5_amended_subst testWriter 200 (by decide) (by decide)⟩

/-- Claim C6: from any state with column_position ≤ 80, every sequence of
public write-path calls succeeds (no bounds-check failure — `none` models the
Rust panic — is ever reached) and leaves column_position in 0..80. -/
theorem claim_C6_no_oob (w : Writer) (ops : List WriteOp)
    (h : w.column_position ≤ 80) :
    ∃ w', runOps w ops = some w' ∧ w'.column_position ≤ 80 :=
  runOps_safe ops w h

/-- Witness for C6 at a concrete op sequence. -/
theorem claim_C6_witness :
    testWriter.column_position ≤ 80 ∧
    (∃ w', runOps testWriter
        [WriteOp.stringOp [72, 105, 10], WriteOp.byteOp 33, WriteOp.newlineOp]
        = some w' ∧ w'.column_position ≤ 80) :=
  ⟨by decide,
   claim_C6_no_oob testWriter
     [WriteOp.stringOp [72, 105, 10], WriteOp.byteOp 33, WriteOp.newlineOp]
     (by decide)⟩

/-- Claim C3: from column 0, writing 80 printable bytes fills the last row's
columns 0..79 in order with no scroll and leaves column_position at 80; an
81st printable byte triggers exactly one scroll (the filled row moves up to
row 23, the last row is blanked) before being placed at column 0 of the last
row — the wrap check happens before placement. -/
theorem claim_C3_fill_then_wrap (w : Writer) (bs : List Nat) (b : Nat)
    (hcol : w.column_position = 0) (hlen : bs.length = 80)
    (hbs : ∀ x ∈ bs, 0x20 ≤ x ∧ x ≤ 0x7e)
    (hb1 : 0x20 ≤ b) (hb2 : b ≤ 0x7e) :
    ∃ w', w.write_string bs = some w' ∧
      w'.column_position = 80 ∧
      w'.color_code = w.color_code ∧
      (∀ c, c < 80 →
        w'.buffer 24 c = { ascii_character := bs[c]!, color_code := w.color_code }) ∧
      (∀ r c, r < 24 → w'.buffer r c = w.buffer r c) ∧
      (∃ w2, w'.write_byte b = some w2 ∧
        w2.column_position = 1 ∧
        w2.buffer 24 0 = { ascii_character := b, color_code := w.color_code } ∧
        (∀ c, c < 80 → w2.buffer 23 c = w'.buffer 24 c) ∧
        (∀ c, 1 ≤ c → c < 80 →
          w2.buffer 24 c = { ascii_character := 32, color_code := w.color_code }) ∧
        (∀ r c, r < 23 → c < 80 → w2.buffer r c = w'.buffer (r + 1) c)) := by
  obtain ⟨w', hw', hcol', hcolor', hbuf'⟩ :=
    write_string_printable bs w hbs (by have h80 := BUFFER_WIDTH_eq; omega)
  have hcol80 : w'.column_position = 80 := by omega
  refine ⟨w', hw', hcol80, hcolor', ?_, ?_, ?_⟩
  · intro c hc
    rw [hbuf' 24 c, if_pos ⟨by decide, by omega, by omega⟩]
    have hsub : c - w.column_position = c := by omega
    rw [hsub]
  · intro r c hr
    rw [hbuf' r c, if_neg (by
      intro hcon
      have h25 := BUFFER_HEIGHT_eq
      omega)]
  · rw [write_byte_wrap w' b (by omega) (by have h80 := BUFFER_WIDTH_eq; omega)]
    refine ⟨_, rfl, rfl, ?_, ?_, ?_, ?_⟩
    · show (if (24 : Nat) = BUFFER_HEIGHT - 1 ∧ (0 : Nat) = 0 then
          ({ ascii_character := b, color_code := w'.color_code } : ScreenChar)
        else scrolledBuffer w'.buffer w'.color_code 24 0) = _
      rw [if_pos ⟨by decide, rfl⟩, hcolor']
    · intro c hc
      show (if (23 : Nat) = BUFFER_HEIGHT - 1 ∧ c = 0 then
          ({ ascii_character := b, color_code := w'.color_code } : ScreenChar)
        else scrolledBuffer w'.buffer w'.color_code 23 c) = _
      rw [if_neg (by
        intro hcon
        have h25 := BUFFER_HEIGHT_eq
        omega)]
      unfold scrolledBuffer
      rw [if_pos ⟨by decide, by have h80 := BUFFER_WIDTH_eq; omega⟩]
    · intro c h1c hc
      show (if (24 : Nat) = BUFFER_HEIGHT - 1 ∧ c = 0 then
          ({ ascii_character := b, color_code := w'.color_code } : ScreenChar)
        else scrolledBuffer w'.buffer w'.color_code 24 c) = _
      rw [if_neg (by
        intro hcon
        omega)]
      unfold scrolledBuffer
      rw [if_neg (by
            intro hcon
            have h25 := BUFFER_HEIGHT_eq
            omega),
          if_pos ⟨by decide, by have h80 := BUFFER_WIDTH_eq; omega⟩, hcolor']
    · intro r c hr hc
      show (if r = BUFFER_HEIGHT - 1 ∧ c = 0 then
          ({ ascii_character := b, color_code := w'.color_code } : ScreenChar)
        else scrolledBuffer w'.buffer w'.color_code r c) = _
      rw [if_neg (by
        intro hcon
        have h25 := BUFFER_HEIGHT_eq
        omega)]
      unfold scrolledBuffer
      rw [if_pos ⟨by have h25 := BUFFER_HEIGHT_eq; omega,
                  by have h80 := BUFFER_WIDTH_eq; omega⟩]

/-- Witness for C3: a concrete row of 80 copies of byte 65 followed by byte 66. -/
theorem claim_C3_witness :
    (testWriter.column_position = 0 ∧ (List.replicate 80 65).length = 80 ∧
     (∀ x ∈ List.replicate 80 65, 0x20 ≤ x ∧ x ≤ 0x7e) ∧
     (0x20 : Nat) ≤ 66 ∧ (66 : Nat) ≤ 0x7e) ∧
    (∃ w', testWriter.write_string (List.replicate 80 65) = some w' ∧
      w'.column_position = 80 ∧
      w'.color_code = testWriter.color_code ∧
      (∀ c, c < 80 →
        w'.buffer 24 c
          = { ascii_character := (List.replicate 80 65)[c]!
              color_code := testWriter.color_code }) ∧
      (∀ r c, r < 24 → w'.buffer r c = testWriter.buffer r c) ∧
      (∃ w2, w'.write_byte 66 = some w2 ∧
        w2.column_position = 1 ∧
        w2.buffer 24 0 = { ascii_character := 66, color_code := testWriter.color_code } ∧
        (∀ c, c < 80 → w2.buffer 23 c = w'.buffer 24 c) ∧
        (∀ c, 1 ≤ c → c < 80 →
          w2.buffer 24 c = { ascii_character := 32, color_code := testWriter.color_code }) ∧
        (∀ r c, r < 23 → c < 80 → w2.buffer r c = w'.buffer (r + 1) c))) :=
  ⟨⟨rfl, by decide, by decide, by decide, by decide⟩,
   claim_C3_fill_then_wrap testWriter (List.replicate 80 65) 66 rfl (by decide)
     (by decide) (by decide) (by decide)⟩

end VgaBuffer
